import Mathlib

/-!
Verification of the 123strm remote-tree reconciliation engine.

Shallow embedding of the Python sources under `app/`:
filesystem reconciliation (`file_manager.py`, `file_cleaner.py`),
job orchestration (`job_manager.py`), the access-token cache and the
cloud API wrappers (`cloud_api.py`, `api.py`), and per-file processing
(`file_processor.py`, `strm_generator.py`, `file_traverser.py`).

Machine integers are modelled as `Int`/`Nat`; timestamps as integer
seconds; dictionaries as association lists with last-write-wins insert.
-/

set_option maxRecDepth 40000

namespace Strm123

/-- Association-list dictionary lookup (Python `dict.get`): the most recent
binding for a key wins, mirroring insertion that overwrites. -/
def dictGet {α β : Type} [DecidableEq α] (d : List (α × β)) (k : α) : Option β :=
  match d with
  | [] => none
  | (k', v) :: rest => if k = k' then some v else dictGet rest k

/-- Python `dict.get(k, default)`. -/
def dictGetD {α β : Type} [DecidableEq α] (d : List (α × β)) (k : α) (dflt : β) : β :=
  (dictGet d k).getD dflt

/-- Python `k in dict`: key membership. -/
def dictContains {α β : Type} [DecidableEq α] (d : List (α × β)) (k : α) : Bool :=
  (dictGet d k).isSome

/-- Python `dict[k] = v`: insert/overwrite a binding (new binding shadows). -/
def dictInsert {α β : Type} [DecidableEq α] (d : List (α × β)) (k : α) (v : β) :
    List (α × β) :=
  (k, v) :: d

/-- Python `str.startswith`, over the character list. -/
def pyStartsWith (s pre : String) : Bool :=
  pre.data.isPrefixOf s.data

/-- Python `str.endswith`, over the character list. -/
def pyEndsWith (s suf : String) : Bool :=
  suf.data.reverse.isPrefixOf s.data.reverse

/-- Python `str.lower` (ASCII case folding suffices for extensions). -/
def pyLower (s : String) : String :=
  ⟨s.data.map Char.toLower⟩

/-- Python `os.path.join(a, b)` for POSIX paths:
if `b` starts with the separator it replaces `a`; otherwise a separator is
inserted unless `a` is empty or already ends with one. -/
def joinPath (a b : String) : String :=
  if pyStartsWith b "/" then b
  else if a = "" || pyEndsWith a "/" then a ++ b
  else a ++ "/" ++ b

namespace TokenCache

/-! ### `get_access_token` (`cloud_api.py` lines 167-215, `api.py` lines 168-215)

The function reads the per-`client_id` token cache file unless the
per-job flag in `global_job_cache_tokens` was set to `False`; a cached
token is returned only when its `expiredAt` is strictly later than
`now + timedelta(days=1)`; otherwise the cache file is removed and the
auth endpoint is called, the fresh token persisted and returned.
Timestamps are integer seconds. -/

/-- One second-resolution day, `timedelta(days=1)`. -/
def oneDay : Int := 86400

/-- One hour of seconds. -/
def oneHour : Int := 3600

/-- Outcome of one `get_access_token` call: the token returned, whether the
auth endpoint was called, whether the cache file was removed, and what (if
anything) was written back to the cache file. -/
structure TokenResult where
  token : String
  authCalled : Bool
  cacheRemoved : Bool
  written : Option (String × Int)
  deriving Repr, DecidableEq

/-- The refresh path of `get_access_token`: call `auth_access_token`,
persist `{accessToken, expiredAt}`, return the fresh token.
`removed` records whether the stale cache file was deleted beforehand. -/
def refreshToken (fresh : String × Int) (removed : Bool) : TokenResult :=
  { token := fresh.1
    authCalled := true
    cacheRemoved := removed
    written := some fresh }

/-- Embedding of `get_access_token`.
`useCache` is `global_job_cache_tokens.get(job_id, default_use_cache_token)`;
`cache` is the parsed on-disk cache (`none` models `FileNotFoundError`,
`json.JSONDecodeError` or `KeyError`, all swallowed by the `except`);
`now` is `datetime.now()`; `fresh` is the auth endpoint's response. -/
def get_access_token (useCache : Bool) (cache : Option (String × Int)) (now : Int)
    (fresh : String × Int) : TokenResult :=
  if useCache then
    match cache with
    | some (tok, expireTime) =>
      if expireTime > now + oneDay then
        { token := tok, authCalled := false, cacheRemoved := false, written := none }
      else
        refreshToken fresh true
    | none => refreshToken fresh false
  else
    refreshToken fresh false

end TokenCache

namespace Reconcile

/-! ### `FileManager._clean_recursive` (`file_manager.py` lines 88-123) and
`FileManager.clean_local_files` / `FileCleaner.__init__` normalisation.

The local tree is a finite rose tree of named files and directories.
`_clean_recursive(path)` deletes a file whose joined path is not a key of
`cloud_files`, recurses depth-first into every directory entry, and finally
removes the directory itself when `listdir` comes back empty.  Filesystem
operations are modelled as always succeeding (the code logs and skips
`OSError`s). -/

mutual

/-- A node of the local filesystem: a named file or a named directory with
its children (`os.listdir` order). -/
inductive FSNode where
  | file : String → FSNode
  | dir : String → FSList → FSNode

/-- Children list of a directory. -/
inductive FSList where
  | nil : FSList
  | cons : FSNode → FSList → FSList

end

/-- Name of a node. -/
def FSNode.name : FSNode → String
  | .file n => n
  | .dir n _ => n

mutual

/-- Embedding of `FileManager._clean_recursive` on the node whose parent directory is at
`pp`; `none` means the node was deleted.  A file survives iff its joined path
is a key of `cloud_files`; a directory recurses into its children and is
removed (`os.rmdir`) when nothing remains. -/
def cleanNode (cloudFiles : List (String × String)) (pp : String) :
    FSNode → Option FSNode
  | .file n =>
      if dictContains cloudFiles (joinPath pp n) then some (.file n) else none
  | .dir n cs =>
      match cleanChildren cloudFiles (joinPath pp n) cs with
      | .nil => none
      | cs' => some (.dir n cs')

/-- Depth-first cleaning of the entries of the directory at `p`, keeping the
survivors in order. -/
def cleanChildren (cloudFiles : List (String × String)) (p : String) :
    FSList → FSList
  | .nil => .nil
  | .cons c rest =>
      match cleanNode cloudFiles p c with
      | none => cleanChildren cloudFiles p rest
      | some c' => .cons c' (cleanChildren cloudFiles p rest)

end

/-- The `FileCleaner.__init__` / `FileManager.clean_local_files` manifest
normalisation: `cloud_files or {}` maps `None` to the empty dict. -/
def normalizeManifest (m : Option (List (String × String))) :
    List (String × String) :=
  m.getD []

mutual

/-- A node contains at least one descendant file. -/
def hasFile : FSNode → Bool
  | .file _ => true
  | .dir _ cs => listHasFile cs

/-- Some entry of the list contains a descendant file. -/
def listHasFile : FSList → Bool
  | .nil => false
  | .cons c rest => hasFile c || listHasFile rest

end

mutual

/-- Every directory in the node contains at least one descendant file. -/
def noEmptyDirs : FSNode → Bool
  | .file _ => true
  | .dir _ cs => listHasFile cs && listNoEmptyDirs cs

/-- Conjunction of `noEmptyDirs` over every entry of the list. -/
def listNoEmptyDirs : FSList → Bool
  | .nil => true
  | .cons c rest => noEmptyDirs c && listNoEmptyDirs rest

end

mutual

/-- Every file path in the node (relative to parent path `pp`) is a key of
the manifest `m`. -/
def filesInManifest (m : List (String × String)) (pp : String) : FSNode → Bool
  | .file n => dictContains m (joinPath pp n)
  | .dir n cs => listFilesInManifest m (joinPath pp n) cs

/-- Conjunction of `filesInManifest` over a children list rooted at `p`. -/
def listFilesInManifest (m : List (String × String)) (p : String) : FSList → Bool
  | .nil => true
  | .cons c rest => filesInManifest m p c && listFilesInManifest m p rest

end

end Reconcile

namespace FileCleaner

/-! ### `FileCleaner.clean_local_files` (`file_cleaner.py` lines 16-137)

The pass first drives `os.walk(local_dir, topdown=False)` to completion
(the gathered coroutines are only created while the loop runs), so every
per-directory `(root, dirs, files)` tuple is taken from the *initial*
snapshot of the tree.  It then executes, via `asyncio.gather` over
`asyncio.to_thread` workers, one primitive operation per invalid file
(`os.remove`, `file_cleaner.py` line 84) and one per listed subdirectory
(`_delete_empty_dir`: an emptiness check followed by `os.rmdir`,
lines 116-119; `os.rmdir` of a non-empty directory raises `OSError`,
which is caught).  Nothing orders the parent-directory operations after
the child-file deletions, so the execution is the task multiset run under
an arbitrary schedule.  Each gathered operation is modelled as one atomic
action (the finer check-then-rmdir split only adds interleavings of the
same kind); a schedule is a permutation of the generated task list.
Filesystem state is the flat list of surviving entries, each holding its
parent directory's path and its own name. -/

/-- One gathered primitive operation of the cleaning pass. -/
inductive Task where
  | delFile (path : String)
  | rmdirIfEmpty (dir : String)
  deriving DecidableEq, Repr

/-- A surviving filesystem object: its parent directory's path, its own
name, and whether it is a directory. -/
structure Entry where
  parent : String
  name : String
  isDir : Bool
  deriving DecidableEq, Repr

/-- Full path of an entry. -/
def entryPath (e : Entry) : String :=
  joinPath e.parent e.name

mutual

/-- The snapshot entries of the node whose parent directory is `pp`. -/
def entriesOfNode (pp : String) : Reconcile.FSNode → List Entry
  | .file n => [⟨pp, n, false⟩]
  | .dir n cs => ⟨pp, n, true⟩ :: entriesOfList (joinPath pp n) cs

/-- Snapshot entries of a children list inside the directory at `p`. -/
def entriesOfList (p : String) : Reconcile.FSList → List Entry
  | .nil => []
  | .cons c rest => entriesOfNode p c ++ entriesOfList p rest

end

/-- The `os.remove` tasks of `_delete_invalid_files(d, files)`: one per file
child of `d` whose joined path is not a key of `cloud_files`. -/
def delFileTasks (m : List (String × String)) (d : String) :
    Reconcile.FSList → List Task
  | .nil => []
  | .cons (.file fname) rest =>
      (if dictContains m (joinPath d fname) then [] else
        [.delFile (joinPath d fname)]) ++ delFileTasks m d rest
  | .cons (.dir _ _) rest => delFileTasks m d rest

/-- The `_delete_empty_dir` tasks of `_delete_empty_directories(d, dirs)`:
one per directory child of `d`. -/
def rmdirTasks (d : String) : Reconcile.FSList → List Task
  | .nil => []
  | .cons (.file _) rest => rmdirTasks d rest
  | .cons (.dir nm _) rest => .rmdirIfEmpty (joinPath d nm) :: rmdirTasks d rest

mutual

/-- All tasks the walk generates for the subtree at this node (`os.walk`
with `topdown=False`: child directories' tuples before the parent's own
file-deletion and subdirectory-removal tasks).  A file node generates no
tuple of its own — its deletion task belongs to its parent's tuple. -/
def walkTasks (m : List (String × String)) (pp : String) :
    Reconcile.FSNode → List Task
  | .file _ => []
  | .dir n cs =>
      walkTasksList m (joinPath pp n) cs ++
        delFileTasks m (joinPath pp n) cs ++ rmdirTasks (joinPath pp n) cs

/-- Walk tasks of every child of the directory at `d`, in listing order. -/
def walkTasksList (m : List (String × String)) (d : String) :
    Reconcile.FSList → List Task
  | .nil => []
  | .cons c rest => walkTasks m d c ++ walkTasksList m d rest

end

/-- One atomic task against the current filesystem state.
`delFile` is `os.remove` (a missing file only raises a caught `OSError`);
`rmdirIfEmpty` is `_delete_empty_dir`: if the directory currently has a
child nothing happens, otherwise the directory entry is removed. -/
def runTask (st : List Entry) : Task → List Entry
  | .delFile p => st.filter (fun e => !(!e.isDir && entryPath e == p))
  | .rmdirIfEmpty d =>
      if st.any (fun e => e.parent == d) then st
      else st.filter (fun e => !(e.isDir && entryPath e == d))

/-- Execute a schedule of tasks in order. -/
def execTasks (st : List Entry) : List Task → List Entry
  | [] => st
  | t :: rest => execTasks (runTask st t) rest

end FileCleaner

namespace CloudApi

/-! ### `http_123_request`, `get_file_list`, `get_file_download_url`
(`cloud_api.py` lines 75-141, 251-285, 326-346)

The wire is abstracted as an oracle mapping the attempt index to the outcome
of that HTTP exchange.  `http_123_request`'s post-transport logic is embedded
exactly: a JSON `code` of `401` sets `global_job_cache_tokens[job_id] = False`
and raises; any other nonzero code sleeps 30 seconds and raises; a transport
or JSON-decode failure raises `ApiError` without a code.  The wrappers retry
on *any* exception (`except:` is bare) while `max_retries < 3`, sleeping 5
seconds before each retry; `get_file_list` then raises a plain `Exception`,
while `get_file_download_url` merely logs and falls off the end, returning
`None`.  The sub-second request pacing (`0.34s`) is not modelled.  Sleeps
are recorded in seconds. -/

/-- Outcome of one wire exchange: a decoded body with `code == 0`, a decoded
body with a nonzero vendor `code`, or a transport/decoding failure. -/
inductive Attempt (α : Type) where
  | ok (data : α)
  | apiError (code : Int)
  | transport
  deriving DecidableEq

/-- Exception raised out of a call: `ApiError` carrying the vendor code
(`none` for transport/decode failures), or the wrapper's terminal
`Exception` after exhausting its retries. -/
inductive Err where
  | api (code : Option Int)
  | exhausted
  deriving DecidableEq

/-- Result of a call: final `global_job_cache_tokens`, seconds slept, HTTP
attempts made, and the returned value or raised error. -/
structure CallResult (α : Type) where
  tokens : List (String × Bool)
  sleeps : List Nat
  attempts : Nat
  outcome : Except Err α

/-- Embedding of the `http_123_request` response handling for one exchange. -/
def http_123_request (tokens : List (String × Bool)) (jobId : String)
    (o : Attempt α) : CallResult α :=
  match o with
  | .ok a => ⟨tokens, [], 1, .ok a⟩
  | .apiError c =>
      if c = 401 then ⟨dictInsert tokens jobId false, [], 1, .error (.api (some c))⟩
      else ⟨tokens, [30], 1, .error (.api (some c))⟩
  | .transport => ⟨tokens, [], 1, .error (.api none)⟩

/-- Embedding of `get_file_list`: one `http_123_request`, and on any exception a retry
with a 5-second sleep while `max_retries < 3`, then a terminal raise. -/
def get_file_list (oracle : Nat → Attempt α) (jobId : String)
    (tokens : List (String × Bool)) (i maxRetries : Nat) : CallResult α :=
  let r := http_123_request tokens jobId (oracle i)
  match r.outcome with
  | .ok a => ⟨r.tokens, r.sleeps, 1, .ok a⟩
  | .error _ =>
      if h : maxRetries < 3 then
        let r2 := get_file_list oracle jobId r.tokens (i + 1) (maxRetries + 1)
        ⟨r2.tokens, r.sleeps ++ 5 :: r2.sleeps, r2.attempts + 1, r2.outcome⟩
      else ⟨r.tokens, r.sleeps, 1, .error .exhausted⟩
  termination_by 4 - maxRetries
  decreasing_by omega

/-- Embedding of `get_file_download_url`: same retry scheme, but after the retries are
exhausted the function only logs and returns `None` — no raise. -/
def get_file_download_url (oracle : Nat → Attempt String) (jobId : String)
    (tokens : List (String × Bool)) (i maxRetries : Nat) :
    CallResult (Option String) :=
  let r := http_123_request tokens jobId (oracle i)
  match r.outcome with
  | .ok url => ⟨r.tokens, r.sleeps, 1, .ok (some url)⟩
  | .error _ =>
      if h : maxRetries < 3 then
        let r2 := get_file_download_url oracle jobId r.tokens (i + 1) (maxRetries + 1)
        ⟨r2.tokens, r.sleeps ++ 5 :: r2.sleeps, r2.attempts + 1, r2.outcome⟩
      else ⟨r.tokens, r.sleeps, 1, .ok none⟩
  termination_by 4 - maxRetries
  decreasing_by omega

end CloudApi

namespace FileProc

/-! ### `FileProcessor` (`file_processor.py`) and `StrmGenerator`
(`strm_generator.py`)

Per-file processing over an abstract filesystem (a path → content map) and a
remote-content oracle `dl : fileId → content` standing for
`get_file_download_url` plus the download itself (the remote tree is
unchanged between runs, so `dl` is fixed; transfers are modelled as
succeeding).  Disk writes and url-fetches are recorded as effects.
`os.makedirs(..., exist_ok=True)` creates no file and is not an effect. -/

/-- Index of the last occurrence of `c`, if any. -/
def lastIdxOf (c : Char) : List Char → Option Nat
  | [] => none
  | a :: rest =>
      match lastIdxOf c rest with
      | some i => some (i + 1)
      | none => if a = c then some 0 else none

/-- Python `os.path.splitext` for a bare file name: split at the last dot unless
every character before it is a dot (leading dots do not start an
extension). -/
def splitext (p : String) : String × String :=
  let cs := p.data
  match lastIdxOf '.' cs with
  | none => (p, "")
  | some i =>
      if (cs.take i).all (· = '.') then (p, "")
      else (⟨cs.take i⟩, ⟨cs.drop i⟩)

/-- Python `posixpath.dirname`: everything up to the last separator, with trailing
separators stripped unless the head is all separators. -/
def pyDirname (p : String) : String :=
  let cs := p.data
  match lastIdxOf '/' cs with
  | none => ""
  | some i =>
      let head := cs.take (i + 1)
      if head.all (· = '/') then ⟨head⟩
      else ⟨(head.reverse.dropWhile (· = '/')).reverse⟩

/-- Byte kept verbatim by `urllib.parse.quote` (default `safe='/'`):
ASCII alphanumerics, `_.-~` and `/`. -/
def isQuoteSafe (b : UInt8) : Bool :=
  (65 ≤ b.toNat && b.toNat ≤ 90) || (97 ≤ b.toNat && b.toNat ≤ 122) ||
    (48 ≤ b.toNat && b.toNat ≤ 57) ||
    (b.toNat = 45 || b.toNat = 46 || b.toNat = 95 || b.toNat = 126 || b.toNat = 47)

/-- Uppercase hex digit. -/
def hexChar (n : Nat) : Char :=
  if n < 10 then Char.ofNat (48 + n) else Char.ofNat (55 + n)

/-- Percent-encode one UTF-8 byte as `urllib.parse.quote` does. -/
def quoteByte (b : UInt8) : List Char :=
  if isQuoteSafe b then [Char.ofNat b.toNat]
  else ['%', hexChar (b.toNat / 16), hexChar (b.toNat % 16)]

/-- Python `urllib.parse.quote(s)` with the default safe set, over the string's
UTF-8 bytes. -/
def pyQuote (s : String) : String :=
  ⟨((s.data.flatMap String.utf8EncodeChar).map quoteByte).flatten⟩

/-- Per-job configuration as `FileProcessor.__init__` / `StrmGenerator.__init__`
resolve it from `config_manager`. -/
structure Config where
  jobId : String
  targetDir : String
  pathPrefix : String
  proxy : String
  use302 : Bool
  flatten : Bool
  overwrite : Bool
  videoExts : List String
  imageExts : List String
  subExts : List String
  downloadImageSuffix : List String
  image : Bool
  subtitle : Bool
  nfo : Bool

/-- A remote file entry (`item["fileId"]`, `item["filename"]`). -/
structure FileInfo where
  fileId : Nat
  filename : String

/-- The local filesystem: path → file content. -/
structure FS where
  files : List (String × String)
  deriving DecidableEq

/-- Python `os.path.exists`. -/
def FS.exists? (fs : FS) (p : String) : Bool :=
  dictContains fs.files p

/-- Python `open(p, "w").write(content)`. -/
def FS.write (fs : FS) (p content : String) : FS :=
  ⟨dictInsert fs.files p content⟩

/-- Disk writes `(path, content)` and remote url-fetches performed. -/
structure Effects where
  writes : List (String × String)
  fetches : List Nat
  deriving DecidableEq

/-- No effect. -/
def Effects.empty : Effects := ⟨[], []⟩

/-- Target-path resolution shared by `process_file` and `_process_file`:
`os.path.join(parent_path)` when it already starts with `target_dir`, else
`os.path.join(target_dir, parent_path)`. -/
def targetPathFor (cfg : Config) (parentPath : String) : String :=
  if pyStartsWith parentPath cfg.targetDir then parentPath
  else joinPath cfg.targetDir parentPath

/-- Embedding of `_process_video_file`: build the video url (redirect-proxy form or
direct-path form), pick the strm path (flatten or mirrored), and write the
url into it unless the file exists and `overwrite` is off.  Returns the strm
path. -/
def process_video_file (cfg : Config) (fileId : Nat)
    (fileName fileBaseName parentPath targetPath : String) (fs : FS) :
    String × FS × Effects :=
  let videoUrl :=
    if cfg.use302 then
      cfg.proxy ++ "/get_file_url/" ++ toString fileId ++ "/" ++ pyQuote cfg.jobId
    else
      joinPath (joinPath cfg.pathPrefix parentPath) fileName
  let strmPath :=
    if cfg.flatten then joinPath cfg.targetDir (fileBaseName ++ ".strm")
    else joinPath targetPath (fileBaseName ++ ".strm")
  if !fs.exists? strmPath || cfg.overwrite then
    (strmPath, fs.write strmPath videoUrl, ⟨[(strmPath, videoUrl)], []⟩)
  else
    (strmPath, fs, Effects.empty)

/-- Embedding of `_download_file_with_log`: fetch and write only when the target file does
not already exist.  Returns the target path. -/
def download_file_with_log (dl : Nat → String) (targetPath : String)
    (info : FileInfo) (fs : FS) : String × FS × Effects :=
  let targetFile := joinPath targetPath info.filename
  if !fs.exists? targetFile then
    (targetFile, fs.write targetFile (dl info.fileId),
      ⟨[(targetFile, dl info.fileId)], [info.fileId]⟩)
  else
    (targetFile, fs, Effects.empty)

/-- The `_is_filetype_downloadable` flag: the per-type download flag,
masked off in flatten mode. -/
def downloadable (flag flatten : Bool) : Bool :=
  flag && !flatten

/-- The suffix allow-list check of `_process_image_file`: empty list, or the
base name ends with one of the configured suffixes. -/
def imageSuffixOk (cfg : Config) (fileBaseName : String) : Bool :=
  cfg.downloadImageSuffix.isEmpty ||
    cfg.downloadImageSuffix.any (fun suf => pyEndsWith fileBaseName suf)

/-- Embedding of `FileProcessor.process_file`: dispatch on the lower-cased extension;
returns the produced path (`None` when nothing was handled). -/
def process_file (cfg : Config) (dl : Nat → String) (info : FileInfo)
    (parentPath : String) (fs : FS) : Option String × FS × Effects :=
  let fileName := info.filename
  let fileBaseName := (splitext fileName).1
  let fileExtension := pyLower (splitext fileName).2
  let targetPath := targetPathFor cfg parentPath
  if cfg.videoExts.contains fileExtension then
    let r := process_video_file cfg info.fileId fileName fileBaseName
      parentPath targetPath fs
    (some r.1, r.2)
  else if cfg.imageExts.contains fileExtension then
    if downloadable cfg.image cfg.flatten && imageSuffixOk cfg fileBaseName then
      let r := download_file_with_log dl targetPath info fs
      (some r.1, r.2)
    else (none, fs, Effects.empty)
  else if cfg.subExts.contains fileExtension then
    if downloadable cfg.subtitle cfg.flatten then
      let r := download_file_with_log dl targetPath info fs
      (some r.1, r.2)
    else (none, fs, Effects.empty)
  else if fileExtension = ".nfo" then
    if downloadable cfg.nfo cfg.flatten then
      let r := download_file_with_log dl targetPath info fs
      (some r.1, r.2)
    else (none, fs, Effects.empty)
  else (none, fs, Effects.empty)

/-- Embedding of `StrmGenerator._process_file`: same dispatch, but the per-type flags are
part of the `elif` conditions and every unhandled file falls through to the
default return `os.path.join(target_path, file_name)`. -/
def strm_process_file (cfg : Config) (dl : Nat → String) (info : FileInfo)
    (parentPath : String) (fs : FS) : String × FS × Effects :=
  let fileName := info.filename
  let fileBaseName := (splitext fileName).1
  let fileExtension := pyLower (splitext fileName).2
  let targetPath := targetPathFor cfg parentPath
  if cfg.videoExts.contains fileExtension then
    process_video_file cfg info.fileId fileName fileBaseName parentPath
      targetPath fs
  else if cfg.imageExts.contains fileExtension && downloadable cfg.image cfg.flatten then
    if imageSuffixOk cfg fileBaseName then
      download_file_with_log dl targetPath info fs
    else (joinPath targetPath fileName, fs, Effects.empty)
  else if cfg.subExts.contains fileExtension && downloadable cfg.subtitle cfg.flatten then
    download_file_with_log dl targetPath info fs
  else if fileExtension = ".nfo" && downloadable cfg.nfo cfg.flatten then
    download_file_with_log dl targetPath info fs
  else (joinPath targetPath fileName, fs, Effects.empty)

/-- The handling decision of `FileProcessor.process_file`, as a pure value:
`emitStrm` writes/keeps a strm file, `download` fetches a support file,
`skip` does nothing. -/
inductive Decision where
  | emitStrm | download | skip
  deriving DecidableEq

/-- Classification implemented by `process_file` / `_process_image_file` /
`_process_subtitle_file` / `_process_nfo_file`: the file's extension is
lower-cased and looked up verbatim in the configured lists. -/
def classify (cfg : Config) (name : String) : Decision :=
  let fileBaseName := (splitext name).1
  let fileExtension := pyLower (splitext name).2
  if cfg.videoExts.contains fileExtension then .emitStrm
  else if cfg.imageExts.contains fileExtension then
    if downloadable cfg.image cfg.flatten && imageSuffixOk cfg fileBaseName then
      .download
    else .skip
  else if cfg.subExts.contains fileExtension then
    if downloadable cfg.subtitle cfg.flatten then .download else .skip
  else if fileExtension = ".nfo" then
    if downloadable cfg.nfo cfg.flatten then .download else .skip
  else .skip

/-- Modelled from the spec for C7: the claimed classifier matches the
extension *case-insensitively against the configured lists* (both sides
folded), else NFO iff the extension is ".nfo", else skip; the image rule is
as the claim states it. -/
def classifySpecCI (cfg : Config) (name : String) : Decision :=
  let fileBaseName := (splitext name).1
  let fileExtension := pyLower (splitext name).2
  if cfg.videoExts.any (fun e => pyLower e = fileExtension) then .emitStrm
  else if cfg.imageExts.any (fun e => pyLower e = fileExtension) then
    if downloadable cfg.image cfg.flatten && imageSuffixOk cfg fileBaseName then
      .download
    else .skip
  else if cfg.subExts.any (fun e => pyLower e = fileExtension) then
    if downloadable cfg.subtitle cfg.flatten then .download else .skip
  else if fileExtension = ".nfo" then
    if downloadable cfg.nfo cfg.flatten then .download else .skip
  else .skip

/-- A job configuration whose video extension list carries an upper-case
entry (nothing in `config_manager` normalises the configured lists). -/
def upperCaseConfig : Config :=
  { jobId := "job1"
    targetDir := "/media/"
    pathPrefix := "/"
    proxy := "http://127.0.0.1:1236"
    use302 := true
    flatten := false
    overwrite := false
    videoExts := [".MKV"]
    imageExts := []
    subExts := []
    downloadImageSuffix := []
    image := false
    subtitle := false
    nfo := false }

/-- The default configuration of `config_manager._create_default_config`,
with the scenario overrides of C4 applied
(`video_extensions=[".mp4"]`, `use_302_url=true`, `proxy="http://x/"`,
`job id "job1"`). -/
def scenarioConfig : Config :=
  { jobId := "job1"
    targetDir := "/media/"
    pathPrefix := "/"
    proxy := "http://x/"
    use302 := true
    flatten := false
    overwrite := false
    videoExts := [".mp4"]
    imageExts := [".jpg", ".jpeg", ".png", ".webp"]
    subExts := [".srt", ".ass", ".sub"]
    downloadImageSuffix := []
    image := false
    subtitle := false
    nfo := false }

/-- The default configuration with `image=true, flatten_mode=true`
(the C7 "poster.jpg" case). -/
def posterConfig : Config :=
  { jobId := "job1"
    targetDir := "/media/"
    pathPrefix := "/"
    proxy := "http://127.0.0.1:1236"
    use302 := true
    flatten := true
    overwrite := false
    videoExts := [".mp4", ".mkv", ".ts", ".iso"]
    imageExts := [".jpg", ".jpeg", ".png", ".webp"]
    subExts := [".srt", ".ass", ".sub"]
    downloadImageSuffix := []
    image := true
    subtitle := false
    nfo := false }

/-- The decision actually reached by `StrmGenerator._process_file`'s
`elif` chain (the per-type flags are folded into the conditions, so an
extension present in two lists can fall through to a later branch). -/
def strm_classify (cfg : Config) (name : String) : Decision :=
  let fileBaseName := (splitext name).1
  let fileExtension := pyLower (splitext name).2
  if cfg.videoExts.contains fileExtension then .emitStrm
  else if cfg.imageExts.contains fileExtension && downloadable cfg.image cfg.flatten then
    if imageSuffixOk cfg fileBaseName then .download else .skip
  else if cfg.subExts.contains fileExtension && downloadable cfg.subtitle cfg.flatten then
    .download
  else if fileExtension = ".nfo" && downloadable cfg.nfo cfg.flatten then
    .download
  else .skip

/-- The `process_path` a file item gets in `_process_file_list`
(`strm_generator.py` lines 117-123). -/
def strm_process_path (cfg : Config) (info : FileInfo) (parentPath : String) :
    String :=
  if parentPath = "" then info.filename
  else if pyStartsWith parentPath "/media/" || pyStartsWith parentPath "media/" then
    joinPath parentPath info.filename
  else
    joinPath (joinPath cfg.targetDir parentPath) info.filename

/-- The file branch (`item_type == 0`) of `StrmGenerator._process_file_list`:
process the file under `os.path.dirname(process_path)` and record
`cloud_files[file_path] = item["fileId"]` unconditionally. -/
def strm_process_file_item (cfg : Config) (dl : Nat → String) (info : FileInfo)
    (parentPath : String) (cloudFiles : List (String × Nat)) (fs : FS) :
    List (String × Nat) × FS × Effects :=
  let r := strm_process_file cfg dl info (pyDirname (strm_process_path cfg info parentPath)) fs
  (dictInsert cloudFiles r.1 info.fileId, r.2)

/-- Concatenation of effect logs. -/
def Effects.append (e₁ e₂ : Effects) : Effects :=
  ⟨e₁.writes ++ e₂.writes, e₁.fetches ++ e₂.fetches⟩

/-- One traversal run over the (flattened) sequence of remote file entries,
each paired with the `parent_path` it is listed under; the manifest and
filesystem are threaded in order and effects accumulated. -/
def runPage (cfg : Config) (dl : Nat → String) :
    List (FileInfo × String) → List (String × Nat) → FS →
      List (String × Nat) × FS × Effects
  | [], cloudFiles, fs => (cloudFiles, fs, Effects.empty)
  | (info, pp) :: rest, cloudFiles, fs =>
      let r := strm_process_file_item cfg dl info pp cloudFiles fs
      let r2 := runPage cfg dl rest r.1 r.2.1
      (r2.1, r2.2.1, Effects.append r.2.2 r2.2.2)

/-- The existence check gating the (at most one) disk write of
`_process_file` on a given entry: the strm path for a video, the download
target for a fetched support file, nothing for a skipped entry.  This is the
verification-level description of the guard `not os.path.exists(...)` in
`_process_video_file` / `_download_file_with_log`. -/
def guardKey (cfg : Config) (info : FileInfo) (pp : String) : Option String :=
  let fileName := info.filename
  let fileBaseName := (splitext fileName).1
  let fileExtension := pyLower (splitext fileName).2
  let targetPath := targetPathFor cfg pp
  if cfg.videoExts.contains fileExtension then
    some (if cfg.flatten then joinPath cfg.targetDir (fileBaseName ++ ".strm")
      else joinPath targetPath (fileBaseName ++ ".strm"))
  else if cfg.imageExts.contains fileExtension && downloadable cfg.image cfg.flatten then
    if imageSuffixOk cfg fileBaseName then some (joinPath targetPath fileName)
    else none
  else if cfg.subExts.contains fileExtension && downloadable cfg.subtitle cfg.flatten then
    some (joinPath targetPath fileName)
  else if pyLower (splitext fileName).2 = ".nfo" && downloadable cfg.nfo cfg.flatten then
    some (joinPath targetPath fileName)
  else none

/-- The guard key of a file item of `_process_file_list` (parent path as the
item's `os.path.dirname(process_path)`). -/
def itemGuard (cfg : Config) (info : FileInfo) (pp : String) : Option String :=
  guardKey cfg info (pyDirname (strm_process_path cfg info pp))

/-- Every guarded write target of `entries` already exists on `fs`. -/
def readyAll (cfg : Config) (entries : List (FileInfo × String)) (fs : FS) :
    Prop :=
  ∀ e ∈ entries, ∀ k, itemGuard cfg e.1 e.2 = some k → fs.exists? k = true

end FileProc

namespace JobRunner

/-! ### `JobManager.run_job` (`job_manager.py` lines 24-59)

For a fixed job id `X`, membership of `X` in `self.running_jobs` is a
boolean.  One `run_job(X)` call is a straight-line program whose
shared-state-touching steps are:

* `guard` — `if job_id in self.running_jobs: return` (a silent skip);
* `add` — `self.running_jobs.add(job_id)` (first statement of the `try`);
* `work` — the body: traversal, manifest persistence, cleanup; exceptions
  are caught by the `except`, so control always reaches the `finally`;
* `rem` — `finally: self.running_jobs.remove(job_id)`.

Two calls running in worker threads (`route.py` dispatches `run_job` via
`asyncio.to_thread`) interleave these steps; a schedule picks which call
steps next.  No lock guards the set, so `guard` and `add` of one call are
separate atomic actions. -/

/-- Program counter of one `run_job(X)` call. -/
inductive PC where
  | guard | add | work | rem | done
  deriving DecidableEq, Fintype

/-- State of one call: where it is, and whether it returned via the silent
skip at the guard. -/
structure ThreadSt where
  pc : PC
  skipped : Bool
  deriving DecidableEq, Fintype

/-- Shared state: whether `X ∈ running_jobs`, plus the two calls. -/
structure Sys where
  running : Bool
  thA : ThreadSt
  thB : ThreadSt
  deriving DecidableEq, Fintype

/-- One atomic step of a single call against the shared membership bit. -/
def stepThread (running : Bool) (t : ThreadSt) : Bool × ThreadSt :=
  match t.pc with
  | .guard =>
      if running then (running, { pc := .done, skipped := true })
      else (running, { t with pc := .add })
  | .add => (true, { t with pc := .work })
  | .work => (running, { t with pc := .rem })
  | .rem => (false, { t with pc := .done })
  | .done => (running, t)

/-- One system step: `true` steps call A, `false` steps call B. -/
def step (s : Sys) (a : Bool) : Sys :=
  if a then
    let (r, t) := stepThread s.running s.thA
    { s with running := r, thA := t }
  else
    let (r, t) := stepThread s.running s.thB
    { s with running := r, thB := t }

/-- Run a whole schedule. -/
def run (s : Sys) : List Bool → Sys
  | [] => s
  | a :: rest => run (step s a) rest

/-- Both calls issued, `X` not yet running. -/
def init : Sys :=
  { running := false, thA := ⟨.guard, false⟩, thB := ⟨.guard, false⟩ }

/-- The call got past the guard and ran the body to completion. -/
def proceeded (t : ThreadSt) : Bool :=
  t.pc == .done && !t.skipped

/-- The call is between its `add` and its `remove`. -/
def holding (t : ThreadSt) : Bool :=
  t.pc == .work || t.pc == .rem

/-- The call is past its `add` and did not skip. -/
def committed (t : ThreadSt) : Bool :=
  holding t || (t.pc == .done && !t.skipped)

/-- Reachability invariant: the membership bit is set only while some call
holds it; a skipped call means the other one committed; `skipped` is set
only on arrival at `done`. -/
def inv (s : Sys) : Bool :=
  (!s.running || (holding s.thA || holding s.thB)) &&
  (!s.thA.skipped || committed s.thB) &&
  (!s.thB.skipped || committed s.thA) &&
  (s.thA.pc == .done || !s.thA.skipped) &&
  (s.thB.pc == .done || !s.thB.skipped)

/-- Once call B is parked at `done`, it never moves again, and call A's
`skipped` flag can no longer be set once A is past its guard. -/
def frozen (s : Sys) : Bool :=
  s.thB == ⟨.done, true⟩ && !s.thA.skipped && !(s.thA.pc == .guard)

end JobRunner

namespace Reconcile

mutual

/-- Soundness of `_clean_recursive` on one node: a surviving node has a
descendant file, no empty directories, and only manifest-listed files. -/
theorem cleanNode_sound (m : List (String × String)) (pp : String) (n : FSNode)
    (n' : FSNode) (h : cleanNode m pp n = some n') :
    hasFile n' = true ∧ noEmptyDirs n' = true ∧ filesInManifest m pp n' = true := by
  cases n with
  | file nm =>
    by_cases hk : dictContains m (joinPath pp nm) = true
    · simp [cleanNode, hk] at h
      subst h
      simp [hasFile, noEmptyDirs, filesInManifest, hk]
    · simp [cleanNode, Bool.not_eq_true] at hk
      simp [cleanNode, hk] at h
  | dir nm cs =>
    have hrec := cleanChildren_sound m (joinPath pp nm) cs
    revert h
    unfold cleanNode
    cases hcs : cleanChildren m (joinPath pp nm) cs with
    | nil => intro h; exact absurd h (by simp)
    | cons c' rest' =>
      intro h
      simp only [Option.some.injEq] at h
      subst h
      rw [hcs] at hrec
      simp only [hasFile, noEmptyDirs, filesInManifest]
      exact ⟨hrec.1 c' rest' rfl, by simp [hrec.1 c' rest' rfl, hrec.2.1], hrec.2.2⟩

/-- Soundness of `cleanChildren`: a nonempty survivor list has a descendant
file, and all survivors satisfy the two invariants. -/
theorem cleanChildren_sound (m : List (String × String)) (p : String) (cs : FSList) :
    (∀ c' rest', cleanChildren m p cs = .cons c' rest' →
      listHasFile (cleanChildren m p cs) = true) ∧
    listNoEmptyDirs (cleanChildren m p cs) = true ∧
    listFilesInManifest m p (cleanChildren m p cs) = true := by
  cases cs with
  | nil => simp [cleanChildren, listHasFile, listNoEmptyDirs, listFilesInManifest]
  | cons c rest =>
    have hrest := cleanChildren_sound m p rest
    cases hc : cleanNode m p c with
    | none =>
      simpa [cleanChildren, hc] using hrest
    | some c' =>
      have hcs := cleanNode_sound m p c c' hc
      refine ⟨?_, ?_, ?_⟩
      · intro c'' rest'' _
        simp [cleanChildren, hc, listHasFile, hcs.1]
      · simp [cleanChildren, hc, listNoEmptyDirs, hcs.2.1, hrest.2.1]
      · simp [cleanChildren, hc, listFilesInManifest, hcs.2.2, hrest.2.2]

end

end Reconcile

mutual

/-- Against an empty manifest every file is deleted, so every node is
deleted. -/
theorem cleanNode_empty (pp : String) (n : Reconcile.FSNode) :
    Reconcile.cleanNode [] pp n = none := by
  cases n with
  | file nm => simp [Reconcile.cleanNode, dictContains, dictGet]
  | dir nm cs =>
    have h := cleanChildren_empty (joinPath pp nm) cs
    simp [Reconcile.cleanNode, h]

/-- Against an empty manifest no child survives. -/
theorem cleanChildren_empty (p : String) (cs : Reconcile.FSList) :
    Reconcile.cleanChildren [] p cs = .nil := by
  cases cs with
  | nil => simp [Reconcile.cleanChildren]
  | cons c rest =>
    have hc := cleanNode_empty p c
    have hr := cleanChildren_empty p rest
    simp [Reconcile.cleanChildren, hc, hr]

end

namespace FileCleaner

theorem mem_runTask (st : List Entry) (t : Task) (e : Entry)
    (h : e ∈ runTask st t) : e ∈ st := by
  cases t with
  | delFile p => exact (List.mem_filter.mp h).1
  | rmdirIfEmpty d =>
    simp only [runTask] at h
    split at h
    · exact h
    · exact (List.mem_filter.mp h).1

theorem mem_execTasks (l : List Task) : ∀ (st : List Entry) (e : Entry),
    e ∈ execTasks st l → e ∈ st := by
  induction l with
  | nil => intro st e h; exact h
  | cons t rest ih =>
    intro st e h
    exact mem_runTask st t e (ih (runTask st t) e h)

theorem not_mem_runTask_delFile (st : List Entry) (e : Entry) (p : String)
    (hf : e.isDir = false) (hp : entryPath e = p) :
    e ∉ runTask st (.delFile p) := by
  intro hmem
  have hpred := (List.mem_filter.mp hmem).2
  simp [hf, hp] at hpred

theorem execTasks_append (l₁ l₂ : List Task) : ∀ st : List Entry,
    execTasks st (l₁ ++ l₂) = execTasks (execTasks st l₁) l₂ := by
  induction l₁ with
  | nil => intro st; rfl
  | cons t rest ih => intro st; exact ih (runTask st t)

mutual

/-- Every invalid file entry of the snapshot has its `os.remove` task in the
generated task list (a file node's own task is generated by its parent's
walk tuple, hence the second disjunct). -/
theorem taskOfInvalidFile_node (m : List (String × String)) (pp : String)
    (n : Reconcile.FSNode) (e : Entry) (he : e ∈ entriesOfNode pp n)
    (hf : e.isDir = false) (hm : dictContains m (entryPath e) = false) :
    Task.delFile (entryPath e) ∈ walkTasks m pp n ∨
      n = .file e.name ∧ pp = e.parent := by
  cases n with
  | file nm =>
    simp only [entriesOfNode, List.mem_singleton] at he
    subst he
    exact Or.inr ⟨rfl, rfl⟩
  | dir nm cs =>
    left
    rcases List.mem_cons.mp he with he | he
    · subst he; cases hf
    · have hc := taskOfInvalidFile_list m (joinPath pp nm) cs e he hf hm
      simp only [walkTasks, List.mem_append]
      rcases hc with hc | hc
      · exact Or.inl (Or.inl hc)
      · exact Or.inl (Or.inr hc)

/-- List version of `taskOfInvalidFile_node`: the task is among the
children's walk tasks or among this directory's own file-deletion tasks. -/
theorem taskOfInvalidFile_list (m : List (String × String)) (d : String)
    (cs : Reconcile.FSList) (e : Entry) (he : e ∈ entriesOfList d cs)
    (hf : e.isDir = false) (hm : dictContains m (entryPath e) = false) :
    Task.delFile (entryPath e) ∈ walkTasksList m d cs ∨
      Task.delFile (entryPath e) ∈ delFileTasks m d cs := by
  cases cs with
  | nil => simp [entriesOfList] at he
  | cons c rest =>
    rcases List.mem_append.mp (by simpa [entriesOfList] using he) with h1 | h2
    · rcases taskOfInvalidFile_node m d c e h1 hf hm with ht | ⟨hc, hp⟩
      · exact Or.inl (by simp only [walkTasksList, List.mem_append]; exact Or.inl ht)
      · subst hc
        have hpath : entryPath e = joinPath d e.name := by
          rw [entryPath, ← hp]
        rw [hpath] at hm
        right
        simp [delFileTasks, hm, hpath]
    · rcases taskOfInvalidFile_list m d rest e h2 hf hm with ht | ht
      · exact Or.inl (by simp only [walkTasksList, List.mem_append]; exact Or.inr ht)
      · right
        cases c with
        | file fn => simp only [delFileTasks, List.mem_append]; exact Or.inr ht
        | dir dn dcs => simpa [delFileTasks] using ht

end

/-- On every ordering of the gathered tasks, after the pass completes every
surviving file entry's path is a key of the manifest. -/
theorem files_in_manifest_any_schedule (m : List (String × String))
    (pp nm : String) (cs : Reconcile.FSList) (sched : List Task)
    (hperm : sched.Perm (walkTasks m pp (.dir nm cs))) (e : Entry)
    (he : e ∈ execTasks (entriesOfNode pp (.dir nm cs)) sched)
    (hf : e.isDir = false) : dictContains m (entryPath e) = true := by
  by_contra hm
  have hm' : dictContains m (entryPath e) = false := by
    cases h : dictContains m (entryPath e)
    · rfl
    · exact absurd h hm
  have hinit : e ∈ entriesOfNode pp (.dir nm cs) := mem_execTasks sched _ e he
  have htask : Task.delFile (entryPath e) ∈ walkTasks m pp (.dir nm cs) := by
    rcases taskOfInvalidFile_node m pp (.dir nm cs) e hinit hf hm' with h | ⟨h, _⟩
    · exact h
    · cases h
  have hsched : Task.delFile (entryPath e) ∈ sched := hperm.mem_iff.mpr htask
  obtain ⟨l₁, l₂, rfl⟩ := List.append_of_mem hsched
  rw [execTasks_append] at he
  exact not_mem_runTask_delFile _ e (entryPath e) hf rfl
    (mem_execTasks l₂ _ e he)

end FileCleaner

/-- C1 counterexample: in `FileCleaner.clean_local_files` the gathered
parent-directory emptiness check can be scheduled before the deletion of the
directory's last file — in the tree `/r/d/f` with an empty manifest, the
schedule `rmdirIfEmpty /r/d; delFile /r/d/f` (a permutation of the generated
tasks) leaves the directory `/r/d` in place with no descendant at all, so
"no empty directories remain" fails for this run. -/
theorem C1_counterexample_empty_dir_survives :
    List.Perm
        [FileCleaner.Task.rmdirIfEmpty "/r/d", FileCleaner.Task.delFile "/r/d/f"]
        (FileCleaner.walkTasks [] "/"
          (.dir "r" (.cons (.dir "d" (.cons (.file "f") .nil)) .nil))) ∧
    FileCleaner.execTasks
        (FileCleaner.entriesOfNode "/"
          (.dir "r" (.cons (.dir "d" (.cons (.file "f") .nil)) .nil)))
        [FileCleaner.Task.rmdirIfEmpty "/r/d", FileCleaner.Task.delFile "/r/d/f"] =
      [⟨"/", "r", true⟩, ⟨"/r", "d", true⟩] ∧
    (([⟨"/", "r", true⟩, ⟨"/r", "d", true⟩] : List FileCleaner.Entry).any
        (fun e => e.isDir && FileCleaner.entryPath e == "/r/d")) = true ∧
    (([⟨"/", "r", true⟩, ⟨"/r", "d", true⟩] : List FileCleaner.Entry).all
        (fun e => e.parent != "/r/d")) = true := by
  exact ⟨by decide, rfl, by decide, by decide⟩

/-- C1, amended: after `FileManager._clean_recursive(T, M)` every remaining
file's path is a key of `M` and no empty directory remains; for
`FileCleaner.clean_local_files(T, M)` every ordering of its concurrently
gathered tasks still deletes exactly the files whose paths are not keys of
`M` — every file that still exists has its path in `M` — but its
parent-directory emptiness checks are not ordered after child-file
deletions, so an emptied directory can survive the pass (see the
counterexample). -/
theorem C1_reconciliation_amended :
    (∀ (m : List (String × String)) (pp : String) (n n' : Reconcile.FSNode),
      Reconcile.cleanNode m pp n = some n' →
      Reconcile.filesInManifest m pp n' = true ∧
        Reconcile.noEmptyDirs n' = true) ∧
    (∀ (m : List (String × String)) (pp nm : String) (cs : Reconcile.FSList)
      (sched : List FileCleaner.Task),
      sched.Perm (FileCleaner.walkTasks m pp (.dir nm cs)) →
      ∀ e ∈ FileCleaner.execTasks
          (FileCleaner.entriesOfNode pp (.dir nm cs)) sched,
        e.isDir = false → dictContains m (FileCleaner.entryPath e) = true) :=
  ⟨fun m pp n n' h =>
    ⟨(Reconcile.cleanNode_sound m pp n n' h).2.2,
      (Reconcile.cleanNode_sound m pp n n' h).2.1⟩,
    fun m pp nm cs sched hperm e he hf =>
      FileCleaner.files_in_manifest_any_schedule m pp nm cs sched hperm e he hf⟩

/-- Witness for C1: the sequential pass at a concrete tree, and the
any-schedule file guarantee at a concrete tree and schedule. -/
theorem C1_reconciliation_amended_witness :
    Reconcile.filesInManifest [("/r/a", "1")] "/"
        (.dir "r" (.cons (.file "a") .nil)) = true ∧
    dictContains [("/r/a", "1")]
        (FileCleaner.entryPath ⟨"/r", "a", false⟩) = true :=
  ⟨(C1_reconciliation_amended.1 [("/r/a", "1")] "/"
      (.dir "r" (.cons (.file "a") (.cons (.file "b")
        (.cons (.dir "d" (.cons (.file "c") .nil)) .nil))))
      (.dir "r" (.cons (.file "a") .nil)) rfl).1,
    C1_reconciliation_amended.2 [("/r/a", "1")] "/" "r"
      (.cons (.file "a") (.cons (.file "b") .nil))
      (FileCleaner.walkTasks [("/r/a", "1")] "/"
        (.dir "r" (.cons (.file "a") (.cons (.file "b") .nil))))
      (List.Perm.refl _) ⟨"/r", "a", false⟩ (by decide) rfl⟩

/-- C10: a manifest of `None` (normalised to `{}` by `cloud_files or {}`) or
an empty manifest makes reconciliation delete every file and every emptied
directory: nothing under the local root survives. -/
theorem C10_empty_manifest_deletes_everything (pp : String) (n : Reconcile.FSNode) :
    Reconcile.cleanNode (Reconcile.normalizeManifest none) pp n = none ∧
    Reconcile.cleanNode (Reconcile.normalizeManifest (some [])) pp n = none :=
  ⟨cleanNode_empty pp n, cleanNode_empty pp n⟩

namespace JobRunner

theorem inv_init : inv init = true := by decide

theorem inv_step : ∀ s : Sys, ∀ a : Bool, inv s = true → inv (step s a) = true := by
  decide

theorem inv_run (sched : List Bool) : ∀ s : Sys, inv s = true →
    inv (run s sched) = true := by
  induction sched with
  | nil => intro s h; exact h
  | cons a rest ih => intro s h; exact ih (step s a) (inv_step s a h)

theorem frozen_step : ∀ s : Sys, ∀ a : Bool, frozen s = true →
    frozen (step s a) = true := by
  decide

theorem frozen_run (sched : List Bool) : ∀ s : Sys, frozen s = true →
    frozen (run s sched) = true := by
  induction sched with
  | nil => intro s h; exact h
  | cons a rest ih => intro s h; exact ih (step s a) (frozen_step s a h)

end JobRunner

/-- C2 counterexample: the membership check and the insertion are separate
steps, so the interleaving `A:guard, B:guard, A:add, B:add, A:work, B:work,
A:rem, B:rem` lets both `run_job(X)` calls proceed to completion — "exactly
one proceeds" fails for this schedule. -/
theorem C2_counterexample_both_proceed :
    JobRunner.proceeded
        (JobRunner.run JobRunner.init
          [true, false, true, false, true, false, true, false]).thA = true ∧
      JobRunner.proceeded
        (JobRunner.run JobRunner.init
          [true, false, true, false, true, false, true, false]).thB = true := by
  decide

/-- C2, amended: (1) a `run_job(X)` call whose guard runs while `X` is in the
running set returns immediately, skipped, without touching any state; (2) on
every schedule that finishes both calls, `X` has been removed from the
running set (removal happens on every exit path, exceptions included); (3) at
least one of the two calls proceeds; and (4) if the second call's guard runs
after the first call's insertion (schedule `A,A,B,…`), the second is a no-op
and the first alone proceeds — exactly one.  Without an atomic
check-and-insert, "exactly one" holds only in case (4), not for all
interleavings (see the counterexample). -/
theorem C2_amended_at_most_one_run (t : JobRunner.ThreadSt) (r : Bool)
    (sched rest : List Bool) (hpc : t.pc = .guard) (hr : r = true) :
    JobRunner.stepThread r t = (r, ⟨.done, true⟩) ∧
    ((JobRunner.run JobRunner.init sched).thA.pc = .done →
      (JobRunner.run JobRunner.init sched).thB.pc = .done →
      (JobRunner.run JobRunner.init sched).running = false ∧
      (JobRunner.proceeded (JobRunner.run JobRunner.init sched).thA = true ∨
        JobRunner.proceeded (JobRunner.run JobRunner.init sched).thB = true)) ∧
    ((JobRunner.run JobRunner.init ([true, true, false] ++ rest)).thB =
        ⟨.done, true⟩ ∧
      ((JobRunner.run JobRunner.init ([true, true, false] ++ rest)).thA.pc = .done →
        JobRunner.proceeded
          (JobRunner.run JobRunner.init ([true, true, false] ++ rest)).thA = true)) := by
  subst hr
  refine ⟨?_, ?_, ?_⟩
  · rcases t with ⟨pc, sk⟩
    obtain rfl : pc = JobRunner.PC.guard := hpc
    rfl
  · intro hA hB
    have hinv := JobRunner.inv_run sched JobRunner.init JobRunner.inv_init
    revert hinv hA hB
    generalize JobRunner.run JobRunner.init sched = s
    revert s; decide
  · have hfr : JobRunner.frozen
        (JobRunner.run JobRunner.init [true, true, false]) = true := by decide
    have h := JobRunner.frozen_run rest _ hfr
    have hrw : JobRunner.run JobRunner.init ([true, true, false] ++ rest) =
        JobRunner.run (JobRunner.run JobRunner.init [true, true, false]) rest := rfl
    rw [hrw]
    revert h
    generalize JobRunner.run (JobRunner.run JobRunner.init [true, true, false]) rest = s
    revert s; decide

/-- Witness for C2 at a concrete guard state and the schedule
`A:guard, A:add, B:guard(skip), A:work, A:rem`: the first call alone
proceeds. -/
theorem C2_amended_at_most_one_run_witness :
    (JobRunner.ThreadSt.mk .guard false).pc = .guard ∧ true = true ∧
      JobRunner.proceeded
        (JobRunner.run JobRunner.init [true, true, false, true, true]).thA = true :=
  ⟨rfl, rfl,
    (((C2_amended_at_most_one_run ⟨.guard, false⟩ true
        [true, true, false, true, true] [] rfl rfl).2.1 (by decide)
        (by decide)).2).resolve_right (by decide)⟩

/-- C3: `get_access_token` returns the cached token, without calling the auth
endpoint, if and only if the cached `expiredAt` is strictly greater than
`now + 1 day`; in particular a token expiring at `now + 23h` is refreshed
(auth endpoint called, fresh token persisted and returned) while one expiring
at `now + 25h` is served from cache with no auth call and no write. -/
theorem C3_token_expiry_boundary (cache : Option (String × Int)) (now : Int)
    (fresh : String × Int) (tok : String) (exp : Int) (hc : cache = some (tok, exp)) :
    (((TokenCache.get_access_token true cache now fresh).token = tok ∧
        (TokenCache.get_access_token true cache now fresh).authCalled = false) ↔
      exp > now + TokenCache.oneDay) ∧
    (exp = now + 23 * TokenCache.oneHour →
      (TokenCache.get_access_token true cache now fresh).authCalled = true ∧
      (TokenCache.get_access_token true cache now fresh).token = fresh.1 ∧
      (TokenCache.get_access_token true cache now fresh).written = some fresh) ∧
    (exp = now + 25 * TokenCache.oneHour →
      (TokenCache.get_access_token true cache now fresh).token = tok ∧
      (TokenCache.get_access_token true cache now fresh).authCalled = false ∧
      (TokenCache.get_access_token true cache now fresh).written = none) := by
  subst hc
  refine ⟨?_, ?_, ?_⟩
  · by_cases h : exp > now + TokenCache.oneDay <;>
      simp [TokenCache.get_access_token, TokenCache.refreshToken, h]
  · intro h
    have hlt : ¬exp > now + TokenCache.oneDay := by
      subst h; simp only [TokenCache.oneHour, TokenCache.oneDay]; omega
    simp [TokenCache.get_access_token, TokenCache.refreshToken, hlt]
  · intro h
    have hgt : exp > now + TokenCache.oneDay := by
      subst h; simp only [TokenCache.oneHour, TokenCache.oneDay]; omega
    simp [TokenCache.get_access_token, TokenCache.refreshToken, hgt]

/-- Witness for C3 at a concrete instant: `now = 0`, a cached token expiring
in 25 hours is served from cache. -/
theorem C3_token_expiry_boundary_witness :
    (some (("cached", (25 : Int) * TokenCache.oneHour) : String × Int) =
        some (("cached" : String), (25 : Int) * TokenCache.oneHour)) ∧
      (TokenCache.get_access_token true (some ("cached", 25 * TokenCache.oneHour)) 0
          ("fresh", 2 * TokenCache.oneDay)).token = "cached" :=
  ⟨rfl,
    ((C3_token_expiry_boundary (some ("cached", 25 * TokenCache.oneHour)) 0
          ("fresh", 2 * TokenCache.oneDay) "cached" (25 * TokenCache.oneHour)
          rfl).2.2 (by norm_num)).1⟩

namespace CloudApi

/-- Every `get_file_list` call performs at least one HTTP attempt. -/
theorem get_file_list_attempts_pos {α : Type} (oracle : Nat → Attempt α)
    (jobId : String) (tokens : List (String × Bool)) (i maxRetries : Nat) :
    1 ≤ (get_file_list oracle jobId tokens i maxRetries).attempts := by
  rw [get_file_list]
  split
  · simp
  · split
    · simp
    · simp

end CloudApi

/-- C5 counterexample: when every attempt fails with a transport error,
`get_file_download_url` makes 4 attempts with 5-second backoffs and then
*returns* `None` (a success-shaped empty result) instead of raising. -/
theorem C5_counterexample_download_url_returns_none :
    CloudApi.get_file_download_url (fun _ => CloudApi.Attempt.transport) "j" [] 0 0 =
      ⟨[], [5, 5, 5], 4, Except.ok none⟩ := by
  simp [CloudApi.get_file_download_url, CloudApi.http_123_request]

/-- C5, amended: under persistent transport failures every call is attempted
4 times (the original call plus 3 retries) with a 5-second sleep before each
retry; `get_file_list` then surfaces a terminal exception, but
`get_file_download_url` returns `None` instead of raising. -/
theorem C5_amended_retry_policy {α : Type} (oracle : Nat → CloudApi.Attempt α)
    (oracleS : Nat → CloudApi.Attempt String) (jobId : String)
    (tokens : List (String × Bool)) (i : Nat)
    (h : ∀ n, oracle n = .transport) (hS : ∀ n, oracleS n = .transport) :
    CloudApi.get_file_list oracle jobId tokens i 0 =
      ⟨tokens, [5, 5, 5], 4, Except.error CloudApi.Err.exhausted⟩ ∧
    CloudApi.get_file_download_url oracleS jobId tokens i 0 =
      ⟨tokens, [5, 5, 5], 4, Except.ok none⟩ := by
  constructor
  · simp [CloudApi.get_file_list, CloudApi.http_123_request, h]
  · simp [CloudApi.get_file_download_url, CloudApi.http_123_request, hS]

/-- Witness for C5 with the everywhere-failing oracle. -/
theorem C5_amended_retry_policy_witness :
    CloudApi.get_file_list (fun _ => CloudApi.Attempt.transport (α := Nat))
        "j" [] 0 0 =
      ⟨[], [5, 5, 5], 4, Except.error CloudApi.Err.exhausted⟩ :=
  (C5_amended_retry_policy (fun _ => CloudApi.Attempt.transport)
      (fun _ => CloudApi.Attempt.transport) "j" [] 0
      (fun _ => rfl) (fun _ => rfl)).1

/-- C6 counterexample: an auth-rejected (`code == 401`) `get_file_list` call
is retried locally by the bare `except:` — with a 401 on the first attempt
and success on the second, the wrapper makes 2 attempts and returns the data;
the 401 is never surfaced to the caller. -/
theorem C6_counterexample_401_is_retried :
    CloudApi.get_file_list
        (fun n => if n = 0 then CloudApi.Attempt.apiError 401
          else CloudApi.Attempt.ok (7 : Nat)) "j" [] 0 0 =
      ⟨[("j", false)], [5], 2, Except.ok 7⟩ := by
  simp [CloudApi.get_file_list, CloudApi.http_123_request, dictInsert]

/-- C6, amended: on a 401 response `http_123_request` sets
`global_job_cache_tokens[job_id] = False` and raises without the 30-second
rate-limit sleep and without any retry of its own; the invalidation is
visible to the very next `get_access_token`, which then bypasses the cache
and calls the auth endpoint.  However the calling wrapper
(`get_file_list`) retries the failed call locally through its bare
`except:`, so the error is not surfaced to its caller. -/
theorem C6_amended_auth_rejection (tokens : List (String × Bool)) (jobId : String)
    (cache : Option (String × Int)) (now : Int) (fresh : String × Int)
    (oracle : Nat → CloudApi.Attempt α) (i : Nat)
    (h401 : oracle i = .apiError 401) :
    CloudApi.http_123_request tokens jobId (oracle i) =
      ⟨dictInsert tokens jobId false, [], 1,
        Except.error (CloudApi.Err.api (some 401))⟩ ∧
    dictGetD (dictInsert tokens jobId false) jobId true = false ∧
    (TokenCache.get_access_token
        (dictGetD (dictInsert tokens jobId false) jobId true) cache now
        fresh).authCalled = true ∧
    (CloudApi.get_file_list oracle jobId tokens i 0).attempts ≥ 2 := by
  refine ⟨?_, ?_, ?_, ?_⟩
  · simp [h401, CloudApi.http_123_request]
  · simp [dictGetD, dictGet, dictInsert]
  · simp [dictGetD, dictGet, dictInsert, TokenCache.get_access_token,
      TokenCache.refreshToken]
  · rw [CloudApi.get_file_list]
    simp only [h401, CloudApi.http_123_request]
    split
    · simp_all
    · have hpos := CloudApi.get_file_list_attempts_pos oracle jobId
        (dictInsert tokens jobId false) (i + 1) 1
      simp
      omega

/-- Witness for C6 at the concrete 401-then-success oracle: after the
invalidation the next token fetch calls the auth endpoint. -/
theorem C6_amended_auth_rejection_witness :
    (TokenCache.get_access_token
        (dictGetD (dictInsert [] "j" false) "j" true)
        (some ("cached", 999999999)) 0 ("fresh", 5)).authCalled = true :=
  (C6_amended_auth_rejection [] "j" (some ("cached", 999999999)) 0 ("fresh", 5)
      (fun n => if n = 0 then CloudApi.Attempt.apiError 401
        else CloudApi.Attempt.ok (7 : Nat)) 0 rfl).2.2.1

namespace FileProc

theorem exists_write_iff (fs : FS) (p c q : String) :
    (fs.write p c).exists? q = true ↔ q = p ∨ fs.exists? q = true := by
  by_cases hq : q = p <;>
    simp [FS.write, FS.exists?, dictContains, dictGet, dictInsert, hq]

theorem exists_write_self (fs : FS) (p c : String) :
    (fs.write p c).exists? p = true :=
  (exists_write_iff fs p c p).mpr (Or.inl rfl)

theorem exists_write_of_exists (fs : FS) (p c q : String)
    (h : fs.exists? q = true) : (fs.write p c).exists? q = true :=
  (exists_write_iff fs p c q).mpr (Or.inr h)

theorem process_video_file_mono (cfg : Config) (fileId : Nat)
    (fn fb pp tp : String) (fs : FS) (q : String) (h : fs.exists? q = true) :
    (process_video_file cfg fileId fn fb pp tp fs).2.1.exists? q = true := by
  simp only [process_video_file]
  split <;> split
  all_goals first
    | exact exists_write_of_exists _ _ _ _ h
    | exact h

theorem download_file_with_log_mono (dl : Nat → String) (tp : String)
    (info : FileInfo) (fs : FS) (q : String) (h : fs.exists? q = true) :
    (download_file_with_log dl tp info fs).2.1.exists? q = true := by
  simp only [download_file_with_log]
  split
  · exact exists_write_of_exists _ _ _ _ h
  · exact h

theorem strm_process_file_mono (cfg : Config) (dl : Nat → String)
    (info : FileInfo) (pp : String) (fs : FS) (q : String)
    (h : fs.exists? q = true) :
    (strm_process_file cfg dl info pp fs).2.1.exists? q = true := by
  simp only [strm_process_file]
  split
  · exact process_video_file_mono _ _ _ _ _ _ _ _ h
  · split
    · split
      · exact download_file_with_log_mono _ _ _ _ _ h
      · exact h
    · split
      · exact download_file_with_log_mono _ _ _ _ _ h
      · split
        · exact download_file_with_log_mono _ _ _ _ _ h
        · exact h

theorem process_video_file_establishes (cfg : Config) (fileId : Nat)
    (fn fb pp tp : String) (fs : FS) (hov : cfg.overwrite = false) :
    (process_video_file cfg fileId fn fb pp tp fs).2.1.exists?
      (if cfg.flatten then joinPath cfg.targetDir (fb ++ ".strm")
        else joinPath tp (fb ++ ".strm")) = true := by
  simp only [process_video_file]
  split <;> split
  all_goals first
    | exact exists_write_self _ _ _
    | (rename_i hcond; simpa [hov] using hcond)

theorem download_file_with_log_establishes (dl : Nat → String) (tp : String)
    (info : FileInfo) (fs : FS) :
    (download_file_with_log dl tp info fs).2.1.exists?
      (joinPath tp info.filename) = true := by
  simp only [download_file_with_log]
  split
  · exact exists_write_self _ _ _
  · rename_i hcond
    simpa using hcond

theorem strm_process_file_establishes (cfg : Config) (dl : Nat → String)
    (info : FileInfo) (pp : String) (fs : FS) (k : String)
    (hov : cfg.overwrite = false) (hk : guardKey cfg info pp = some k) :
    (strm_process_file cfg dl info pp fs).2.1.exists? k = true := by
  by_cases h1 : pyLower (splitext info.filename).2 ∈ cfg.videoExts
  · simp [guardKey, h1] at hk
    simp [strm_process_file, h1]
    rw [← hk]
    exact process_video_file_establishes cfg info.fileId info.filename _ pp _ fs hov
  · by_cases h2 : pyLower (splitext info.filename).2 ∈ cfg.imageExts ∧
        downloadable cfg.image cfg.flatten = true
    · by_cases hsuf : imageSuffixOk cfg (splitext info.filename).1 = true
      · simp [guardKey, h1, h2, hsuf] at hk
        simp [strm_process_file, h1, h2, hsuf]
        rw [← hk]
        exact download_file_with_log_establishes dl _ info fs
      · simp [guardKey, h1, h2, hsuf] at hk
    · by_cases h3 : pyLower (splitext info.filename).2 ∈ cfg.subExts ∧
          downloadable cfg.subtitle cfg.flatten = true
      · simp [guardKey, h1, h2, h3] at hk
        simp [strm_process_file, h1, h2, h3]
        rw [← hk]
        exact download_file_with_log_establishes dl _ info fs
      · by_cases h4 : pyLower (splitext info.filename).2 = ".nfo" ∧
            downloadable cfg.nfo cfg.flatten = true
        · obtain ⟨h4a, h4b⟩ := h4
          rw [h4a] at h1 h2 h3
          simp [guardKey, h1, h2, h3, h4a, h4b] at hk
          simp [strm_process_file, h1, h2, h3, h4a, h4b]
          rw [← hk]
          exact download_file_with_log_establishes dl _ info fs
        · simp [guardKey, h1, h2, h3, h4] at hk

theorem strm_process_file_noop (cfg : Config) (dl : Nat → String)
    (info : FileInfo) (pp : String) (fs : FS) (hov : cfg.overwrite = false)
    (hready : ∀ k, guardKey cfg info pp = some k → fs.exists? k = true) :
    (strm_process_file cfg dl info pp fs).2.1 = fs ∧
      (strm_process_file cfg dl info pp fs).2.2 = Effects.empty := by
  by_cases h1 : pyLower (splitext info.filename).2 ∈ cfg.videoExts
  · have hex := hready
      (if cfg.flatten then joinPath cfg.targetDir ((splitext info.filename).1 ++ ".strm")
        else joinPath (targetPathFor cfg pp) ((splitext info.filename).1 ++ ".strm"))
      (by simp [guardKey, h1])
    constructor <;>
      simp [strm_process_file, process_video_file, h1, hex, hov]
  · by_cases h2 : pyLower (splitext info.filename).2 ∈ cfg.imageExts ∧
        downloadable cfg.image cfg.flatten = true
    · by_cases hsuf : imageSuffixOk cfg (splitext info.filename).1 = true
      · have hex := hready (joinPath (targetPathFor cfg pp) info.filename)
          (by simp [guardKey, h1, h2, hsuf])
        constructor <;>
          simp [strm_process_file, download_file_with_log, h1, h2, hsuf, hex]
      · constructor <;> simp [strm_process_file, h1, h2, hsuf]
    · by_cases h3 : pyLower (splitext info.filename).2 ∈ cfg.subExts ∧
          downloadable cfg.subtitle cfg.flatten = true
      · have hex := hready (joinPath (targetPathFor cfg pp) info.filename)
          (by simp [guardKey, h1, h2, h3])
        constructor <;>
          simp [strm_process_file, download_file_with_log, h1, h2, h3, hex]
      · by_cases h4 : pyLower (splitext info.filename).2 = ".nfo" ∧
            downloadable cfg.nfo cfg.flatten = true
        · obtain ⟨h4a, h4b⟩ := h4
          rw [h4a] at h1 h2 h3
          have hex := hready (joinPath (targetPathFor cfg pp) info.filename)
            (by simp [guardKey, h1, h2, h3, h4a, h4b])
          constructor <;>
            simp [strm_process_file, download_file_with_log, h1, h2, h3, h4a,
              h4b, hex]
        · constructor <;> simp [strm_process_file, h1, h2, h3, h4]

theorem strm_item_mono (cfg : Config) (dl : Nat → String) (info : FileInfo)
    (pp : String) (m : List (String × Nat)) (fs : FS) (q : String)
    (h : fs.exists? q = true) :
    (strm_process_file_item cfg dl info pp m fs).2.1.exists? q = true :=
  strm_process_file_mono cfg dl info _ fs q h

theorem strm_item_establishes (cfg : Config) (dl : Nat → String)
    (info : FileInfo) (pp : String) (m : List (String × Nat)) (fs : FS)
    (k : String) (hov : cfg.overwrite = false)
    (hk : itemGuard cfg info pp = some k) :
    (strm_process_file_item cfg dl info pp m fs).2.1.exists? k = true :=
  strm_process_file_establishes cfg dl info _ fs k hov hk

theorem strm_item_noop (cfg : Config) (dl : Nat → String) (info : FileInfo)
    (pp : String) (m : List (String × Nat)) (fs : FS)
    (hov : cfg.overwrite = false)
    (hready : ∀ k, itemGuard cfg info pp = some k → fs.exists? k = true) :
    (strm_process_file_item cfg dl info pp m fs).2.1 = fs ∧
      (strm_process_file_item cfg dl info pp m fs).2.2 = Effects.empty :=
  strm_process_file_noop cfg dl info _ fs hov hready

theorem runPage_mono (cfg : Config) (dl : Nat → String)
    (entries : List (FileInfo × String)) :
    ∀ (m : List (String × Nat)) (fs : FS) (q : String),
      fs.exists? q = true → (runPage cfg dl entries m fs).2.1.exists? q = true := by
  induction entries with
  | nil => intro m fs q h; exact h
  | cons e rest ih =>
    rcases e with ⟨info, pp⟩
    intro m fs q h
    exact ih _ _ q (strm_item_mono cfg dl info pp m fs q h)

theorem runPage_establishes (cfg : Config) (dl : Nat → String)
    (entries : List (FileInfo × String)) (hov : cfg.overwrite = false) :
    ∀ (m : List (String × Nat)) (fs : FS),
      readyAll cfg entries (runPage cfg dl entries m fs).2.1 := by
  induction entries with
  | nil => intro m fs e he; cases he
  | cons e rest ih =>
    rcases e with ⟨info, pp⟩
    intro m fs e' he' k hk
    rcases List.mem_cons.mp he' with he' | he'
    · subst he'
      exact runPage_mono cfg dl rest _ _ k
        (strm_item_establishes cfg dl info pp m fs k hov hk)
    · exact ih _ _ e' he' k hk

theorem runPage_noop (cfg : Config) (dl : Nat → String)
    (entries : List (FileInfo × String)) (hov : cfg.overwrite = false) :
    ∀ (m : List (String × Nat)) (fs : FS), readyAll cfg entries fs →
      (runPage cfg dl entries m fs).2.1 = fs ∧
        (runPage cfg dl entries m fs).2.2 = Effects.empty := by
  induction entries with
  | nil => intro m fs _; exact ⟨rfl, rfl⟩
  | cons e rest ih =>
    rcases e with ⟨info, pp⟩
    intro m fs hready
    have hhead := strm_item_noop cfg dl info pp m fs hov
      (fun k hk => hready (info, pp) (List.mem_cons_self _ _) k hk)
    have htail := ih (strm_process_file_item cfg dl info pp m fs).1 fs
      (fun e' he' k hk => hready e' (List.mem_cons_of_mem _ he') k hk)
    constructor
    · show (runPage cfg dl rest (strm_process_file_item cfg dl info pp m fs).1
          (strm_process_file_item cfg dl info pp m fs).2.1).2.1 = fs
      rw [hhead.1]
      exact htail.1
    · show Effects.append (strm_process_file_item cfg dl info pp m fs).2.2
          (runPage cfg dl rest (strm_process_file_item cfg dl info pp m fs).1
            (strm_process_file_item cfg dl info pp m fs).2.1).2.2 = Effects.empty
      rw [hhead.1, hhead.2, htail.2]
      rfl

/-- The decision `strm_classify` is `skip` exactly when `_process_file` reaches its
default return: no write, no fetch, unchanged filesystem, and the returned
path is `os.path.join(target_path, file_name)`. -/
theorem strm_process_file_skip (cfg : Config) (dl : Nat → String)
    (info : FileInfo) (pp : String) (fs : FS)
    (h : strm_classify cfg info.filename = .skip) :
    strm_process_file cfg dl info pp fs =
      (joinPath (targetPathFor cfg pp) info.filename, fs, Effects.empty) := by
  by_cases h1 : pyLower (splitext info.filename).2 ∈ cfg.videoExts
  · simp [strm_classify, h1] at h
  · by_cases h2 : pyLower (splitext info.filename).2 ∈ cfg.imageExts ∧
        downloadable cfg.image cfg.flatten = true
    · by_cases hsuf : imageSuffixOk cfg (splitext info.filename).1 = true
      · simp [strm_classify, h1, h2, hsuf] at h
      · simp [strm_process_file, h1, h2, hsuf]
    · by_cases h3 : pyLower (splitext info.filename).2 ∈ cfg.subExts ∧
          downloadable cfg.subtitle cfg.flatten = true
      · simp [strm_classify, h1, h2, h3] at h
      · by_cases h4 : pyLower (splitext info.filename).2 = ".nfo" ∧
            downloadable cfg.nfo cfg.flatten = true
        · obtain ⟨h4a, h4b⟩ := h4
          rw [h4a] at h1 h2 h3
          simp [strm_classify, h1, h2, h3, h4a, h4b] at h
        · simp [strm_process_file, h1, h2, h3, h4]

end FileProc

/-- C4 counterexample: with the configured proxy `"http://x/"` (trailing
slash) the strm file written for `{id:42, name:"ep1.mp4"}` under root path
`""` contains `"http://x//get_file_url/42/job1"` — a double slash — and not
the claimed `"http://x/get_file_url/42/job1"`. -/
theorem C4_counterexample_double_slash :
    FileProc.process_file FileProc.scenarioConfig (fun _ => "") ⟨42, "ep1.mp4"⟩ ""
        ⟨[]⟩ =
      (some "/media/ep1.strm",
        ⟨[("/media/ep1.strm", "http://x//get_file_url/42/job1")]⟩,
        ⟨[("/media/ep1.strm", "http://x//get_file_url/42/job1")], []⟩) ∧
    "http://x//get_file_url/42/job1" ≠ "http://x/get_file_url/42/job1" := by
  exact ⟨rfl, by decide⟩

/-- C4, amended: the scenario writes the strm file at `target_dir/ep1.strm`,
but its content is the proxy string concatenated with
`"/get_file_url/42/" ++ quote(job_id)`; with the configured proxy
`"http://x/"` that is `"http://x//get_file_url/42/job1"` (the code never
strips a trailing slash from the proxy). -/
theorem C4_redirect_strm_scenario (dl : Nat → String) (fs : FileProc.FS)
    (h : fs.exists? "/media/ep1.strm" = false) :
    FileProc.process_file FileProc.scenarioConfig dl ⟨42, "ep1.mp4"⟩ "" fs =
      (some "/media/ep1.strm",
        fs.write "/media/ep1.strm" "http://x//get_file_url/42/job1",
        ⟨[("/media/ep1.strm", "http://x//get_file_url/42/job1")], []⟩) := by
  have key : FileProc.process_file FileProc.scenarioConfig dl ⟨42, "ep1.mp4"⟩ "" fs =
      (some (FileProc.process_video_file FileProc.scenarioConfig 42 "ep1.mp4" "ep1"
          "" "/media/" fs).1,
        (FileProc.process_video_file FileProc.scenarioConfig 42 "ep1.mp4" "ep1"
          "" "/media/" fs).2) := rfl
  have key2 : FileProc.process_video_file FileProc.scenarioConfig 42 "ep1.mp4" "ep1"
      "" "/media/" fs =
      if !fs.exists? "/media/ep1.strm" || false then
        ("/media/ep1.strm",
          fs.write "/media/ep1.strm" "http://x//get_file_url/42/job1",
          ⟨[("/media/ep1.strm", "http://x//get_file_url/42/job1")], []⟩)
      else ("/media/ep1.strm", fs, FileProc.Effects.empty) := rfl
  rw [key, key2, h]
  simp

/-- Witness for C4 on the empty filesystem. -/
theorem C4_redirect_strm_scenario_witness :
    (FileProc.FS.mk []).exists? "/media/ep1.strm" = false ∧
      (FileProc.process_file FileProc.scenarioConfig (fun _ => "")
          ⟨42, "ep1.mp4"⟩ "" ⟨[]⟩).1 = some "/media/ep1.strm" :=
  ⟨rfl, by rw [C4_redirect_strm_scenario (fun _ => "") ⟨[]⟩ rfl]⟩

/-- C7 counterexample: the configured lists are matched verbatim, not
case-insensitively — with `video_extensions = [".MKV"]` the file
`"movie.MKV"` (lower-cased extension `".mkv"`) matches nothing and is
skipped, while the claimed case-insensitive matching classifies it as
video. -/
theorem C7_counterexample_uppercase_config :
    FileProc.classify FileProc.upperCaseConfig "movie.MKV" =
        FileProc.Decision.skip ∧
      FileProc.classifySpecCI FileProc.upperCaseConfig "movie.MKV" =
        FileProc.Decision.emitStrm ∧
      FileProc.Decision.skip ≠ FileProc.Decision.emitStrm := by
  exact ⟨rfl, rfl, by decide⟩

/-- C7, amended: classification lower-cases the *filename's* extension and
looks it up verbatim in the configured lists (case-insensitive in the
filename only; a configured entry with upper-case letters never matches);
video wins over image; an image file yields `Download` iff the `image` flag
is on, `flatten_mode` is off, and the suffix allow-list is empty or the base
name ends with a configured suffix; a file matching no list whose extension
is not ".nfo" is skipped; and `"poster.jpg"` under
`{image:true, flatten_mode:true}` is skipped. -/
theorem C7_classifier_decision (cfg : FileProc.Config) (name : String) :
    (FileProc.classify cfg name = .emitStrm ↔
      pyLower (FileProc.splitext name).2 ∈ cfg.videoExts) ∧
    (pyLower (FileProc.splitext name).2 ∉ cfg.videoExts →
      pyLower (FileProc.splitext name).2 ∈ cfg.imageExts →
      (FileProc.classify cfg name = .download ↔
        cfg.image = true ∧ cfg.flatten = false ∧
          FileProc.imageSuffixOk cfg (FileProc.splitext name).1 = true)) ∧
    (pyLower (FileProc.splitext name).2 ∉ cfg.videoExts →
      pyLower (FileProc.splitext name).2 ∉ cfg.imageExts →
      pyLower (FileProc.splitext name).2 ∉ cfg.subExts →
      pyLower (FileProc.splitext name).2 ≠ ".nfo" →
      FileProc.classify cfg name = .skip) ∧
    FileProc.classify FileProc.posterConfig "poster.jpg" = .skip := by
  refine ⟨?_, ?_, ?_, rfl⟩
  · by_cases h1 : pyLower (FileProc.splitext name).2 ∈ cfg.videoExts
    · simp [FileProc.classify, h1]
    · by_cases h2 : pyLower (FileProc.splitext name).2 ∈ cfg.imageExts
      · simp [FileProc.classify, h1, h2]
        split <;> simp
      · by_cases h3 : pyLower (FileProc.splitext name).2 ∈ cfg.subExts
        · simp [FileProc.classify, h1, h2, h3]
          split <;> simp
        · by_cases h4 : pyLower (FileProc.splitext name).2 = ".nfo"
          · simp [FileProc.classify, h1, h2, h3]
            rw [if_pos h4]
            split <;> simp
          · simp [FileProc.classify, h1, h2, h3, h4]
  · intro h1 h2
    simp [FileProc.classify, h1, h2, FileProc.downloadable]
  · intro h1 h2 h3 h4
    simp [FileProc.classify, h1, h2, h3, h4]

/-- Witness for C7 at `"fanart.jpg"` under a configuration with the image
flag on, flatten off and suffix list `["poster", "fanart"]`. -/
theorem C7_classifier_decision_witness :
    pyLower (FileProc.splitext "fanart.jpg").2 ∉
        FileProc.scenarioConfig.videoExts ∧
      pyLower (FileProc.splitext "fanart.jpg").2 ∈
        FileProc.scenarioConfig.imageExts ∧
      (FileProc.classify FileProc.scenarioConfig "fanart.jpg" = .download ↔
        FileProc.scenarioConfig.image = true ∧
          FileProc.scenarioConfig.flatten = false ∧
          FileProc.imageSuffixOk FileProc.scenarioConfig
              (FileProc.splitext "fanart.jpg").1 = true) :=
  ⟨by decide, by decide,
    (C7_classifier_decision FileProc.scenarioConfig "fanart.jpg").2.1
      (by decide) (by decide)⟩

/-- C8: with `overwrite = false`, running the traversal a second time over
the same remote entries (unchanged remote content `dl`) leaves the
filesystem exactly as the first run left it and performs zero disk writes
and zero url-fetches: every strm target and download target materialised by
the first run already exists, so every write guard takes its skip branch. -/
theorem C8_second_run_idempotent (cfg : FileProc.Config) (dl : Nat → String)
    (entries : List (FileProc.FileInfo × String))
    (m₀ : List (String × Nat)) (fs₀ : FileProc.FS)
    (hov : cfg.overwrite = false) :
    (FileProc.runPage cfg dl entries m₀
        (FileProc.runPage cfg dl entries m₀ fs₀).2.1).2.1 =
      (FileProc.runPage cfg dl entries m₀ fs₀).2.1 ∧
    (FileProc.runPage cfg dl entries m₀
        (FileProc.runPage cfg dl entries m₀ fs₀).2.1).2.2 =
      FileProc.Effects.empty :=
  FileProc.runPage_noop cfg dl entries hov m₀ _
    (FileProc.runPage_establishes cfg dl entries hov m₀ fs₀)

/-- Witness for C8: one video and one skipped file under `"Show"`, starting
from the empty filesystem. -/
theorem C8_second_run_idempotent_witness :
    FileProc.scenarioConfig.overwrite = false ∧
      (FileProc.runPage FileProc.scenarioConfig (fun n => toString n)
          [(⟨1, "a.mp4"⟩, "Show"), (⟨2, "readme.txt"⟩, "Show")] []
          (FileProc.runPage FileProc.scenarioConfig (fun n => toString n)
            [(⟨1, "a.mp4"⟩, "Show"), (⟨2, "readme.txt"⟩, "Show")] []
            ⟨[]⟩).2.1).2.2 = FileProc.Effects.empty :=
  ⟨rfl,
    (C8_second_run_idempotent FileProc.scenarioConfig (fun n => toString n)
        [(⟨1, "a.mp4"⟩, "Show"), (⟨2, "readme.txt"⟩, "Show")] [] ⟨[]⟩ rfl).2⟩

/-- C9 counterexample: `StrmGenerator._process_file_list` records
`cloud_files[file_path] = fileId` unconditionally, so a skipped file
(`"readme.txt"` matches no configured list) still adds its would-be target
path to the manifest: the manifest is not left unchanged. -/
theorem C9_counterexample_skip_adds_key :
    (FileProc.strm_process_file_item FileProc.scenarioConfig (fun _ => "")
        ⟨42, "readme.txt"⟩ "Show" [] ⟨[]⟩).1 =
      [("/media/Show/readme.txt", 42)] ∧
    ([("/media/Show/readme.txt", 42)] : List (String × Nat)) ≠ [] := by
  exact ⟨rfl, by decide⟩

/-- C9, amended: processing a file whose decision is `Skip` performs no
filesystem effect — no write, no fetch, the filesystem is unchanged — but
the file's default path `os.path.join(target_path, file_name)` is still
inserted into the cloud manifest mapped to its remote id, so the manifest
does change. -/
theorem C9_skip_frame_effect (cfg : FileProc.Config) (dl : Nat → String)
    (info : FileProc.FileInfo) (pp : String)
    (cloudFiles : List (String × Nat)) (fs : FileProc.FS)
    (h : FileProc.strm_classify cfg info.filename = .skip) :
    FileProc.strm_process_file_item cfg dl info pp cloudFiles fs =
      (dictInsert cloudFiles
          (joinPath
            (FileProc.targetPathFor cfg
              (FileProc.pyDirname (FileProc.strm_process_path cfg info pp)))
            info.filename)
          info.fileId,
        fs, FileProc.Effects.empty) := by
  simp only [FileProc.strm_process_file_item,
    FileProc.strm_process_file_skip cfg dl info _ fs h]

/-- Witness for C9 with a second skipped file. -/
theorem C9_skip_frame_effect_witness :
    FileProc.strm_classify FileProc.scenarioConfig "notes.txt" = .skip ∧
      (FileProc.strm_process_file_item FileProc.scenarioConfig (fun _ => "")
          ⟨7, "notes.txt"⟩ "" [] ⟨[]⟩).2.1 = (⟨[]⟩ : FileProc.FS) :=
  ⟨rfl, by
    rw [C9_skip_frame_effect FileProc.scenarioConfig (fun _ => "")
      ⟨7, "notes.txt"⟩ "" [] ⟨[]⟩ rfl]⟩

end Strm123
